import Mathlib

/-!
Shallow embedding of the DIFuse dependency-injection container
(src/container.ts and src/provider.ts).

JavaScript runtime values are modelled by `Value` (with JS truthiness),
containers are heap cells addressed by natural-number ids (`CID`), and the
mutable heap of containers together with the object allocator and a log of
constructor invocations forms the `World`.  Errors thrown by the source are
modelled with `Except Err`; a thrown error carries the world as mutated up to
the throw, exactly as JS exceptions do.  Potentially unbounded recursion
(cyclic parent chains, cyclic dependencies) is modelled with a fuel
parameter that decreases at every nested `Container.get` call.
-/

namespace DIFuse

/-- JS runtime values, as far as the container can observe them: primitives
plus heap objects compared by reference identity (`obj r`). -/
inductive Value where
  | undef
  | null
  | bool (b : Bool)
  | num (n : Int)
  | nan
  | str (s : String)
  | obj (r : Nat)
deriving DecidableEq, Repr

/-- JS truthiness: `undefined`, `null`, `false`, `0`, `NaN` and `""` are
falsy, everything else (including every object) is truthy. -/
def truthy : Value → Bool
  | .undef => false
  | .null => false
  | .bool b => b
  | .num n => n != 0
  | .nan => false
  | .str s => s != ""
  | .obj _ => true

/-- A `Service` constructor function (service.ts): identity `uid`, the
`.name` property, and `.length` (the declared positional-parameter count,
read by the provider constructors for arity validation). -/
structure Svc where
  uid : Nat
  name : String
  arity : Nat
deriving DecidableEq, Repr

/-- `ServiceID<T> = Service<T> | Token<T>` (service.ts): either an opaque
`Token` (identity `uid`, diagnostic `name`) or a constructor reference used
as its own key.  Identifiers compare by identity, never by name. -/
inductive ServiceID where
  | token (uid : Nat) (name : String)
  | ref (svc : Svc)
deriving DecidableEq, Repr

/-- Diagnostic `.name` of an identifier, used in error messages. -/
def ServiceID.sname : ServiceID → String
  | .token _ n => n
  | .ref s => s.name

/-- Container ids: references into the world's container heap. -/
abbrev CID := Nat

/-- The producer function handed to `Container.provider` is an arbitrary JS
closure `(container) => T`; the embedding models the closures the library's
claims exercise: returning a fixed value, or reading another id from the
container it is given. -/
inductive ProducerFn where
  | constFn (v : Value)
  | getFn (sid : ServiceID)
deriving DecidableEq, Repr

/-- The `Provider<T>` implementations of provider.ts.  `service` and
`interface` carry the optional service-level (`locals`) container by
reference; `custom` is the object literal stored by `Container.provider`. -/
inductive Provider where
  | constant (serviceID : ServiceID) (value : Value)
  | service (svc : Svc) (providers : List ServiceID) (locals : Option CID)
  | interface (serviceID : ServiceID) (svc : Svc) (providers : List ServiceID)
      (locals : Option CID)
  | custom (serviceID : ServiceID) (fn : ProducerFn)
deriving DecidableEq, Repr

/-- The errors thrown by container.ts / provider.ts, carrying the data that
appears in their messages. -/
inductive Err where
  | outOfFuel
  | alreadyRegistered (idName : String) (containerName : String)
  | arityMismatch (svcName : String) (expected : Nat) (received : Nat)
  | serviceNotFound (sid : ServiceID)
deriving DecidableEq, Repr

instance {ε α : Type} [DecidableEq ε] [DecidableEq α] : DecidableEq (Except ε α) := fun a b =>
  match a, b with
  | .ok x, .ok y =>
      if h : x = y then .isTrue (by rw [h]) else .isFalse (by intro hc; cases hc; exact h rfl)
  | .error x, .error y =>
      if h : x = y then .isTrue (by rw [h]) else .isFalse (by intro hc; cases hc; exact h rfl)
  | .ok _, .error _ => .isFalse (by intro hc; cases hc)
  | .error _, .ok _ => .isFalse (by intro hc; cases hc)

/-- The private state of one `Container` (container.ts lines 7-12):
`parents` is a `Set<Container>` (insertion order, no duplicates),
`providers` and `cache` are `Map`s (modelled as association lists with
update-in-place-or-append semantics). -/
structure ContainerData where
  name : String := ""
  parents : List CID := []
  providers : List (ServiceID × Provider) := []
  cache : List (ServiceID × Value) := []
deriving DecidableEq, Repr

/-- The mutable heap: every allocated container, the container allocator
(`nextCID`), the object allocator (`nextObj`), and an observation log of
constructor invocations `(constructor, positional arguments)` recording each
`new svc(...args)` the engine performs. -/
structure World where
  containers : List (CID × ContainerData) := []
  nextCID : Nat := 0
  nextObj : Nat := 0
  events : List (Svc × List Value) := []
deriving DecidableEq, Repr

/-- First-match lookup in an association list (`Map.get`). -/
def lookupA {α β : Type} [DecidableEq α] : List (α × β) → α → Option β
  | [], _ => none
  | (k, v) :: rest, k' => if k = k' then some v else lookupA rest k'

/-- `Map.set`: update the existing entry in place, else append. -/
def setA {α β : Type} [DecidableEq α] : List (α × β) → α → β → List (α × β)
  | [], k, v => [(k, v)]
  | (k0, v0) :: rest, k, v =>
      if k0 = k then (k0, v) :: rest else (k0, v0) :: setA rest k v

/-- `Set.add`: append if absent, no-op if already present. -/
def addUnique (l : List CID) (c : CID) : List CID :=
  if c ∈ l then l else l ++ [c]

/-- Dereference a container id.  Worlds are only built through the
registration API, so every id that appears is allocated; a dangling id
dereferences to an inert empty container. -/
def getContainer (w : World) (cid : CID) : ContainerData :=
  (lookupA w.containers cid).getD {}

/-- Write back one container's state. -/
def putContainer (w : World) (cid : CID) (c : ContainerData) : World :=
  { w with containers := setA w.containers cid c }

/-- `new Container(name)`: allocate a fresh empty container. -/
def newContainer (w : World) (name : String := "") : World × CID :=
  ({ w with containers := setA w.containers w.nextCID { name := name },
            nextCID := w.nextCID + 1 },
   w.nextCID)

/-- Store a provider under an id (`this.providers.set(id, provider)`). -/
def setProvider (w : World) (cid : CID) (sid : ServiceID) (p : Provider) : World :=
  let c := getContainer w cid
  putContainer w cid { c with providers := setA c.providers sid p }

/-- Store a produced instance (`this.cache.set(serviceID, service)`). -/
def setCache (w : World) (cid : CID) (sid : ServiceID) (v : Value) : World :=
  let c := getContainer w cid
  putContainer w cid { c with cache := setA c.cache sid v }

/-- `Container.inherit(...containers)` (container.ts lines 36-38): add each
argument to the parent `Set`. -/
def Container.inherit (w : World) (cid : CID) (ps : List CID) : World :=
  let c := getContainer w cid
  putContainer w cid { c with parents := ps.foldl addUnique c.parents }

/-- `new this.serviceID(...services)`: invoking a constructor allocates a
fresh object and is recorded in the observation log. -/
def construct (w : World) (svc : Svc) (args : List Value) : World × Value :=
  ({ w with nextObj := w.nextObj + 1, events := w.events ++ [(svc, args)] },
   .obj w.nextObj)

/-- Modelled from the spec: `Container.has` is part of the repository's API
(`has(id) -> bool`; it is exercised by the container test suite and called
by one generation of `ServiceProvider.get`), but no `has` method appears in
the container.ts under src.  Spec §4.3: "`has(id) -> bool`: true iff cached,
or locally provided, or resolvable through the OR of all parents' `has`.
Must not have observable side effects (must not instantiate)."  It is a pure
`Bool`-valued function of the world, so it cannot raise and cannot mutate;
fuel bounds recursion through cyclic parent chains. -/
def hasFuel : Nat → World → CID → ServiceID → Bool
  | 0, _, _, _ => false
  | fuel + 1, w, cid, sid =>
    let c := getContainer w cid
    (lookupA c.cache sid).isSome || (lookupA c.providers sid).isSome ||
      c.parents.any fun p => hasFuel fuel w p sid

/-- The type of a nested resolution call (`container.get(serviceID)` as
invoked from inside a loop or a provider). -/
abbrev GetFn := World → CID → ServiceID → World × Except Err Value

/-- The parent loop of `Container.get` (container.ts lines 113-119):
`const service = parent.get(serviceID); if (service !== undefined) return
service;` — a parent that throws propagates the throw; a parent that
returns `undefined` is skipped; exhausting the loop reaches the final
`throw new Error("Service ... cannot be resolved.")`. -/
def parentScan (get : GetFn) : World → List CID → ServiceID → World × Except Err Value
  | w, [], sid => (w, .error (.serviceNotFound sid))
  | w, p :: ps, sid =>
    match get w p sid with
    | (w', .ok service) =>
        if service ≠ .undef then (w', .ok service)
        else parentScan get w' ps sid
    | (w', .error e) => (w', .error e)

/-- The dependency loop of `ServiceProvider.get` / `InterfaceProvider.get`:
`for (const provider of this.providers) services.push(resolver.get(provider))`;
a throw from any resolution propagates immediately. -/
def depScan (get : GetFn) : World → CID → List ServiceID → World × Except Err (List Value)
  | w, _, [] => (w, .ok [])
  | w, rcid, d :: ds =>
    match get w rcid d with
    | (w', .ok v) =>
        match depScan get w' rcid ds with
        | (w2, .ok vs) => (w2, .ok (v :: vs))
        | (w2, .error e) => (w2, .error e)
    | (w', .error e) => (w', .error e)

/-- `Provider.get(container)` for each provider kind (provider.ts):
`ConstantProvider.get` returns the stored value; `ServiceProvider.get`
(lines 214-223) first adds the invoking container to the locals' parents
(`if (this.container) this.container.inherit(container)`), resolves each
declared dependency through the effective resolver (`this.container`, else
the invoking container), and invokes the constructor with the collected
values; `InterfaceProvider.get` (lines 258-267) is identical with the
decoupled constructor; the custom provider calls its stored closure. -/
def providerProduce (get : GetFn) (w : World) (p : Provider) (invoking : CID) :
    World × Except Err Value :=
  match p with
  | .constant _ v => (w, .ok v)
  | .service svc deps locals =>
    let (w1, resolver) :=
      match locals with
      | some lc => (Container.inherit w lc [invoking], lc)
      | none => (w, invoking)
    match depScan get w1 resolver deps with
    | (w2, .ok services) =>
        let (w3, v) := construct w2 svc services
        (w3, .ok v)
    | (w2, .error e) => (w2, .error e)
  | .interface _ svc deps locals =>
    let (w1, resolver) :=
      match locals with
      | some lc => (Container.inherit w lc [invoking], lc)
      | none => (w, invoking)
    match depScan get w1 resolver deps with
    | (w2, .ok services) =>
        let (w3, v) := construct w2 svc services
        (w3, .ok v)
    | (w2, .error e) => (w2, .error e)
  | .custom _ (.constFn v) => (w, .ok v)
  | .custom _ (.getFn sid) => get w invoking sid

/-- `Container.get(serviceID)` (container.ts lines 101-120): return the
cached value if it is truthy; else if a local provider exists, produce,
cache and return; else try each parent in turn, returning the first result
that is not `undefined`; else throw "Service ... cannot be resolved".
The fuel decreases at every nested `get` call, bounding the recursion the
source performs on the call stack. -/
def containerGet : Nat → World → CID → ServiceID → World × Except Err Value
  | 0, w, _, _ => (w, .error .outOfFuel)
  | fuel + 1, w, cid, sid =>
    let c := getContainer w cid
    -- const cached = this.cache.get(serviceID); if (cached) return cached;
    let cached := (lookupA c.cache sid).getD .undef
    if truthy cached then (w, .ok cached)
    else
      -- const provider = this.providers.get(serviceID);
      match lookupA c.providers sid with
      | some p =>
        match providerProduce (fun w' c' s' => containerGet fuel w' c' s') w p cid with
        | (w', .ok service) => (setCache w' cid sid service, .ok service)
        | (w', .error e) => (w', .error e)
      | none =>
        -- for (const parent of this.parents) ...
        parentScan (fun w' c' s' => containerGet fuel w' c' s') w c.parents sid

/-- `Container.exists(serviceID)` (container.ts lines 127-133): throw
"Service ... is already registered in container ..." when the local provider
table already binds the id. -/
def existsCheck (w : World) (cid : CID) (sid : ServiceID) : Except Err Unit :=
  let c := getContainer w cid
  if (lookupA c.providers sid).isSome then
    .error (.alreadyRegistered sid.sname c.name)
  else .ok ()

/-- `Container.constant(token, value)` (container.ts lines 20-29): the
`token instanceof Token` guard is enforced here by the argument's type; a
token already bound locally is rejected; otherwise a `ConstantProvider` is
stored under the token. -/
def Container.constant (w : World) (cid : CID) (tokUid : Nat) (tokName : String)
    (v : Value) : World × Except Err Unit :=
  let sid := ServiceID.token tokUid tokName
  let c := getContainer w cid
  if (lookupA c.providers sid).isSome then
    (w, .error (.alreadyRegistered tokName c.name))
  else (setProvider w cid sid (.constant sid v), .ok ())

/-- A step of the service-level configuration callback
(`container?: (container: Container) => void`).  The callbacks the library's
tests and claims exercise register constants on the service-level container;
the embedding models them as a list of such registrations. -/
inductive RegCmd where
  | constant (tokUid : Nat) (tokName : String) (v : Value)
deriving DecidableEq, Repr

/-- Run a configuration callback on the service-level container; a throw
from a registration propagates, as it would out of the callback. -/
def runBuilder (w : World) (cid : CID) : List RegCmd → World × Except Err Unit
  | [] => (w, .ok ())
  | .constant uid name v :: rest =>
    match Container.constant w cid uid name v with
    | (w', .ok _) => runBuilder w' cid rest
    | (w', .error e) => (w', .error e)

/-- `new ServiceProvider(serviceID, providers, container)` (provider.ts
lines 196-207): throw "Expected ... arguments ... but received ..." when the
constructor's declared parameter count differs from the dependency list's
length. -/
def mkServiceProvider (svc : Svc) (deps : List ServiceID) (locals : Option CID) :
    Except Err Provider :=
  if svc.arity ≠ deps.length then
    .error (.arityMismatch svc.name svc.arity deps.length)
  else .ok (.service svc deps locals)

/-- `new InterfaceProvider(serviceID, service, providers, container)`
(provider.ts lines 239-251): the same arity validation against the stored
constructor's parameter count. -/
def mkInterfaceProvider (tok : ServiceID) (svc : Svc) (deps : List ServiceID)
    (locals : Option CID) : Except Err Provider :=
  if svc.arity ≠ deps.length then
    .error (.arityMismatch svc.name svc.arity deps.length)
  else .ok (.interface tok svc deps locals)

/-- `Container.service(service, providers, container)` (container.ts lines
47-60): the `typeof service !== 'function'` guard is enforced by the
argument's type; then `this.exists(service)`; then a fresh service-level
container is allocated and configured by the callback; then the
`ServiceProvider` is constructed (arity validation) and stored under the
constructor reference. -/
def Container.service (w : World) (cid : CID) (svc : Svc)
    (deps : List ServiceID := []) (builder : List RegCmd := []) :
    World × Except Err Unit :=
  let sid := ServiceID.ref svc
  match existsCheck w cid sid with
  | .error e => (w, .error e)
  | .ok _ =>
    let (w1, lc) := newContainer w
    match runBuilder w1 lc builder with
    | (w2, .error e) => (w2, .error e)
    | (w2, .ok _) =>
      match mkServiceProvider svc deps (some lc) with
      | .error e => (w2, .error e)
      | .ok p => (setProvider w2 cid sid p, .ok ())

/-- `Container.interface(token, service, providers, container)`
(container.ts lines 72-89): type guards by typing; `this.exists(token)`;
fresh configured service-level container; `InterfaceProvider` construction
(arity validation) and storage under the token. -/
def Container.interface (w : World) (cid : CID) (tokUid : Nat) (tokName : String)
    (svc : Svc) (deps : List ServiceID := []) (builder : List RegCmd := []) :
    World × Except Err Unit :=
  let sid := ServiceID.token tokUid tokName
  match existsCheck w cid sid with
  | .error e => (w, .error e)
  | .ok _ =>
    let (w1, lc) := newContainer w
    match runBuilder w1 lc builder with
    | (w2, .error e) => (w2, .error e)
    | (w2, .ok _) =>
      match mkInterfaceProvider sid svc deps (some lc) with
      | .error e => (w2, .error e)
      | .ok p => (setProvider w2 cid sid p, .ok ())

/-- `Container.provider(serviceID, get)` (container.ts lines 91-95):
`this.exists(serviceID)`, then store the custom provider object literal
`{ serviceID, get }` as-is, with no validation of the producer function. -/
def Container.provider (w : World) (cid : CID) (sid : ServiceID) (fn : ProducerFn) :
    World × Except Err Unit :=
  match existsCheck w cid sid with
  | .error e => (w, .error e)
  | .ok _ => (setProvider w cid sid (.custom sid fn), .ok ())

/-! ### Basic lemmas about the map / heap primitives -/

theorem lookupA_setA_self {α β : Type} [DecidableEq α] (l : List (α × β)) (k : α) (v : β) :
    lookupA (setA l k v) k = some v := by
  induction l with
  | nil => simp [setA, lookupA]
  | cons hd tl ih =>
    by_cases h : hd.1 = k
    · simp [setA, h, lookupA]
    · cases hd with
      | mk k0 v0 => simp [setA, h, lookupA] at *; simpa [h] using ih

theorem lookupA_setA_ne {α β : Type} [DecidableEq α] (l : List (α × β)) {k k' : α}
    (v : β) (h : k ≠ k') : lookupA (setA l k v) k' = lookupA l k' := by
  induction l with
  | nil => simp [setA, lookupA, h]
  | cons hd tl ih =>
    cases hd with
    | mk k0 v0 =>
      by_cases h0 : k0 = k
      · simp [setA, h0, lookupA, h]
      · simp [setA, h0, lookupA]
        by_cases h1 : k0 = k'
        · simp [h1]
        · simp [h1, ih]

theorem getContainer_putContainer_self (w : World) (c : CID) (d : ContainerData) :
    getContainer (putContainer w c d) c = d := by
  simp [getContainer, putContainer, lookupA_setA_self]

theorem getContainer_putContainer_ne (w : World) {c c' : CID} (d : ContainerData)
    (h : c ≠ c') : getContainer (putContainer w c d) c' = getContainer w c' := by
  simp [getContainer, putContainer, lookupA_setA_ne _ _ h]

theorem putContainer_nextCID (w : World) (c : CID) (d : ContainerData) :
    (putContainer w c d).nextCID = w.nextCID := rfl

/-! `setCache` changes only the one container's cache. -/

theorem getContainer_setCache (w : World) (cid : CID) (sid : ServiceID) (v : Value) (c : CID) :
    getContainer (setCache w cid sid v) c =
      if cid = c then
        { getContainer w cid with cache := setA (getContainer w cid).cache sid v }
      else getContainer w c := by
  by_cases h : cid = c
  · subst h; simp [setCache, getContainer_putContainer_self]
  · simp [setCache, h, getContainer_putContainer_ne _ _ h]

theorem setCache_providers (w : World) (cid : CID) (sid : ServiceID) (v : Value) (c : CID) :
    (getContainer (setCache w cid sid v) c).providers = (getContainer w c).providers := by
  rw [getContainer_setCache]; by_cases h : cid = c <;> simp [h]

theorem setCache_parents (w : World) (cid : CID) (sid : ServiceID) (v : Value) (c : CID) :
    (getContainer (setCache w cid sid v) c).parents = (getContainer w c).parents := by
  rw [getContainer_setCache]; by_cases h : cid = c <;> simp [h]

theorem setCache_meta (w : World) (cid : CID) (sid : ServiceID) (v : Value) :
    (setCache w cid sid v).nextCID = w.nextCID ∧
    (setCache w cid sid v).nextObj = w.nextObj ∧
    (setCache w cid sid v).events = w.events := by
  simp [setCache, putContainer]

/-! `Container.inherit` changes only the one container's parents. -/

theorem getContainer_inherit (w : World) (lc : CID) (ps : List CID) (c : CID) :
    getContainer (Container.inherit w lc ps) c =
      if lc = c then
        { getContainer w lc with parents := ps.foldl addUnique (getContainer w lc).parents }
      else getContainer w c := by
  by_cases h : lc = c
  · subst h; simp [Container.inherit, getContainer_putContainer_self]
  · simp [Container.inherit, h, getContainer_putContainer_ne _ _ h]

theorem inherit_providers (w : World) (lc : CID) (ps : List CID) (c : CID) :
    (getContainer (Container.inherit w lc ps) c).providers = (getContainer w c).providers := by
  rw [getContainer_inherit]; by_cases h : lc = c <;> simp [h]

theorem inherit_cache (w : World) (lc : CID) (ps : List CID) (c : CID) :
    (getContainer (Container.inherit w lc ps) c).cache = (getContainer w c).cache := by
  rw [getContainer_inherit]; by_cases h : lc = c <;> simp [h]

theorem inherit_meta (w : World) (lc : CID) (ps : List CID) :
    (Container.inherit w lc ps).nextCID = w.nextCID ∧
    (Container.inherit w lc ps).nextObj = w.nextObj ∧
    (Container.inherit w lc ps).events = w.events := by
  simp [Container.inherit, putContainer]

theorem construct_containers (w : World) (svc : Svc) (args : List Value) (c : CID) :
    getContainer (construct w svc args).1 c = getContainer w c := rfl

/-! ### A relation describing the only world changes constant-dependency
resolution can perform: caches may gain entries that agree with a
`ConstantProvider` bound at the same key; everything else is untouched. -/

def ConstCacheExt (w w' : World) : Prop :=
  w'.nextCID = w.nextCID ∧ w'.nextObj = w.nextObj ∧ w'.events = w.events ∧
  (∀ c, (getContainer w' c).providers = (getContainer w c).providers) ∧
  (∀ c, (getContainer w' c).parents = (getContainer w c).parents) ∧
  (∀ c s, lookupA (getContainer w' c).cache s = lookupA (getContainer w c).cache s ∨
     ∃ v, lookupA (getContainer w c).providers s = some (.constant s v) ∧
          lookupA (getContainer w' c).cache s = some v)

theorem ConstCacheExt.refl (w : World) : ConstCacheExt w w :=
  ⟨rfl, rfl, rfl, fun _ => rfl, fun _ => rfl, fun _ _ => Or.inl rfl⟩

theorem ConstCacheExt.trans {w1 w2 w3 : World}
    (h12 : ConstCacheExt w1 w2) (h23 : ConstCacheExt w2 w3) : ConstCacheExt w1 w3 := by
  obtain ⟨a1, b1, c1, p1, q1, r1⟩ := h12
  obtain ⟨a2, b2, c2, p2, q2, r2⟩ := h23
  refine ⟨a2.trans a1, b2.trans b1, c2.trans c1,
    fun c => (p2 c).trans (p1 c), fun c => (q2 c).trans (q1 c), fun c s => ?_⟩
  rcases r2 c s with h | ⟨v, hv, hl⟩
  · rcases r1 c s with h' | ⟨v, hv, hl⟩
    · exact Or.inl (h.trans h')
    · exact Or.inr ⟨v, hv, h.trans hl⟩
  · exact Or.inr ⟨v, (p1 c ▸ hv), hl⟩

theorem ConstCacheExt.setCache_const {w : World} {cid : CID} {sid : ServiceID} {v : Value}
    (hp : lookupA (getContainer w cid).providers sid = some (.constant sid v)) :
    ConstCacheExt w (setCache w cid sid v) := by
  refine ⟨(setCache_meta w cid sid v).1, (setCache_meta w cid sid v).2.1,
    (setCache_meta w cid sid v).2.2, setCache_providers w cid sid v,
    setCache_parents w cid sid v, fun c s => ?_⟩
  rw [getContainer_setCache]
  by_cases hc : cid = c
  · subst hc
    by_cases hs : sid = s
    · subst hs
      refine Or.inr ⟨v, hp, ?_⟩
      simp [lookupA_setA_self]
    · simp [lookupA_setA_ne _ _ hs]
  · simp [hc]

/-! ### One-step unfolding lemmas for the resolution engine -/

theorem containerGet_succ (fuel : Nat) (w : World) (cid : CID) (sid : ServiceID) :
    containerGet (fuel + 1) w cid sid =
      (let c := getContainer w cid
       let cached := (lookupA c.cache sid).getD .undef
       if truthy cached then (w, .ok cached)
       else
         match lookupA c.providers sid with
         | some p =>
           match providerProduce (fun w' c' s' => containerGet fuel w' c' s') w p cid with
           | (w', .ok service) => (setCache w' cid sid service, .ok service)
           | (w', .error e) => (w', .error e)
         | none => parentScan (fun w' c' s' => containerGet fuel w' c' s') w c.parents sid) := rfl

theorem parentScan_cons (get : GetFn) (w : World) (p : CID) (ps : List CID) (sid : ServiceID) :
    parentScan get w (p :: ps) sid =
      (match get w p sid with
       | (w', .ok service) =>
           if service ≠ .undef then (w', .ok service)
           else parentScan get w' ps sid
       | (w', .error e) => (w', .error e)) := rfl

theorem depScan_cons (get : GetFn) (w : World) (rcid : CID) (d : ServiceID) (ds : List ServiceID) :
    depScan get w rcid (d :: ds) =
      (match get w rcid d with
       | (w', .ok v) =>
           match depScan get w' rcid ds with
           | (w2, .ok vs) => (w2, .ok (v :: vs))
           | (w2, .error e) => (w2, .error e)
       | (w', .error e) => (w', .error e)) := rfl

/-! ### Resolution lemmas -/

/-- The cache-hit path: a truthy cached value is returned as-is, with the
world untouched — no provider invocation, no parent consultation. -/
theorem containerGet_cached (fuel : Nat) (w : World) (cid : CID) (sid : ServiceID) (v : Value)
    (hc : lookupA (getContainer w cid).cache sid = some v) (ht : truthy v = true) :
    containerGet (fuel + 1) w cid sid = (w, .ok v) := by
  rw [containerGet_succ]; simp [hc, ht]

/-- The local-provider path for a constant binding when the cache does not
hit: the constant is produced and written to the cache. -/
theorem containerGet_constant_eq (fuel : Nat) (w : World) (cid : CID) (d : ServiceID) (v : Value)
    (hfalsy : truthy ((lookupA (getContainer w cid).cache d).getD .undef) = false)
    (hp : lookupA (getContainer w cid).providers d = some (.constant d v)) :
    containerGet (fuel + 1) w cid d = (setCache w cid d v, .ok v) := by
  rw [containerGet_succ]; simp [hfalsy, hp, providerProduce]

/-- Resolving a constant binding always yields the bound value and at most
rewrites that one cache entry. -/
theorem containerGet_constant (fuel : Nat) (w : World) (cid : CID) (d : ServiceID) (v : Value)
    (hp : lookupA (getContainer w cid).providers d = some (.constant d v))
    (hc : lookupA (getContainer w cid).cache d = none ∨
          lookupA (getContainer w cid).cache d = some v) :
    ∃ w', containerGet (fuel + 1) w cid d = (w', .ok v) ∧ ConstCacheExt w w' := by
  rcases hc with hc | hc
  · exact ⟨setCache w cid d v,
      containerGet_constant_eq fuel w cid d v (by simp [hc, truthy]) hp,
      ConstCacheExt.setCache_const hp⟩
  · by_cases ht : truthy v
    · exact ⟨w, containerGet_cached fuel w cid d v hc ht, ConstCacheExt.refl w⟩
    · exact ⟨setCache w cid d v,
        containerGet_constant_eq fuel w cid d v (by simp [hc]; simpa using ht) hp,
        ConstCacheExt.setCache_const hp⟩

/-- How one dependency identifier is expected to resolve during a
`ServiceProvider.get` call: from the service-level (override) container's
own constant binding, or by falling through the override scope's transient
parent link to the invoking container's constant binding. -/
inductive DepSpec where
  | fromLocal (v : Value)
  | fromParent (v : Value)
deriving DecidableEq, Repr

def DepSpec.value : DepSpec → Value
  | .fromLocal v => v
  | .fromParent v => v

/-- The world-state hypotheses under which a dependency resolves as
described by its `DepSpec` (with `cid` the invoking container and `lc` the
service-level container acting as resolver): a `fromLocal` dependency is
bound by a constant provider on `lc`; a `fromParent` dependency is unbound
on `lc` and bound by a constant provider on `cid`, whose value must not be
`undefined` for the parent scan to accept it. -/
def ResolvesTo (w : World) (cid lc : CID) : ServiceID × DepSpec → Prop
  | (d, .fromLocal v) =>
      lookupA (getContainer w lc).providers d = some (.constant d v) ∧
      (lookupA (getContainer w lc).cache d = none ∨
       lookupA (getContainer w lc).cache d = some v)
  | (d, .fromParent v) =>
      lookupA (getContainer w lc).providers d = none ∧
      lookupA (getContainer w lc).cache d = none ∧
      lookupA (getContainer w cid).providers d = some (.constant d v) ∧
      (lookupA (getContainer w cid).cache d = none ∨
       lookupA (getContainer w cid).cache d = some v) ∧
      v ≠ .undef

theorem ResolvesTo.preserved {w w' : World} {cid lc : CID} {x : ServiceID × DepSpec}
    (hext : ConstCacheExt w w') (h : ResolvesTo w cid lc x) : ResolvesTo w' cid lc x := by
  obtain ⟨_, _, _, hprov, _, hcache⟩ := hext
  obtain ⟨d, spec⟩ := x
  cases spec with
  | fromLocal v =>
    obtain ⟨h1, h2⟩ := h
    refine ⟨(hprov lc) ▸ h1, ?_⟩
    rcases hcache lc d with he | ⟨v', hv', hl⟩
    · rw [he]; exact h2
    · rw [h1] at hv'
      obtain rfl : v = v' := by
        have := Option.some.inj hv'
        exact (Provider.constant.inj this).2
      exact Or.inr hl
  | fromParent v =>
    obtain ⟨h1, h2, h3, h4, h5⟩ := h
    refine ⟨(hprov lc) ▸ h1, ?_, (hprov cid) ▸ h3, ?_, h5⟩
    · rcases hcache lc d with he | ⟨v', hv', _⟩
      · rw [he]; exact h2
      · rw [h1] at hv'; cases hv'
    · rcases hcache cid d with he | ⟨v', hv', hl⟩
      · rw [he]; exact h4
      · rw [h3] at hv'
        obtain rfl : v = v' := by
          have := Option.some.inj hv'
          exact (Provider.constant.inj this).2
        exact Or.inr hl

/-- Resolving one dependency through the service-level container (override
scope first, then the transient parent link to the invoker). -/
theorem containerGet_dep (fuel : Nat) (w : World) (cid lc : CID) (x : ServiceID × DepSpec)
    (hres : ResolvesTo w cid lc x)
    (hpar : (getContainer w lc).parents = [cid]) :
    ∃ w', containerGet (fuel + 1 + 1) w lc x.1 = (w', .ok x.2.value) ∧ ConstCacheExt w w' := by
  obtain ⟨d, spec⟩ := x
  cases spec with
  | fromLocal v =>
    exact containerGet_constant (fuel + 1) w lc d v hres.1 hres.2
  | fromParent v =>
    obtain ⟨h1, h2, h3, h4, h5⟩ := hres
    obtain ⟨w', hw', hext⟩ := containerGet_constant fuel w cid d v h3 h4
    refine ⟨w', ?_, hext⟩
    rw [containerGet_succ]
    simp only [h1, h2, hpar]
    rw [parentScan_cons]
    simp [hw', truthy, h5, DepSpec.value]

/-- The dependency loop resolves a list of specified dependencies to their
specified values, in order, mutating only caches of constant bindings. -/
theorem depScan_specs (fuel : Nat) (w : World) (cid lc : CID)
    (specs : List (ServiceID × DepSpec))
    (hres : ∀ x ∈ specs, ResolvesTo w cid lc x)
    (hpar : (getContainer w lc).parents = [cid]) :
    ∃ w', depScan (fun a b c => containerGet (fuel + 1 + 1) a b c) w lc (specs.map Prod.fst)
        = (w', .ok (specs.map fun x => x.2.value)) ∧ ConstCacheExt w w' := by
  induction specs generalizing w with
  | nil => exact ⟨w, rfl, ConstCacheExt.refl w⟩
  | cons x xs ih =>
    obtain ⟨w1, hw1, hext1⟩ :=
      containerGet_dep fuel w cid lc x (hres x (by simp)) hpar
    have hres1 : ∀ y ∈ xs, ResolvesTo w1 cid lc y :=
      fun y hy => (hres y (by simp [hy])).preserved hext1
    have hpar1 : (getContainer w1 lc).parents = [cid] := by
      rw [hext1.2.2.2.2.1 lc]; exact hpar
    obtain ⟨w', hw', hext'⟩ := ih w1 hres1 hpar1
    refine ⟨w', ?_, hext1.trans hext'⟩
    simp only [List.map_cons]
    rw [depScan_cons]
    simp [hw1, hw']

/-- First resolution of a registered service whose dependencies resolve per
`specs`: the constructor is invoked exactly once (one event appended), with
the resolved values in declared order, and the fresh instance is cached
under the service's identifier. -/
theorem containerGet_service (fuel : Nat) (w : World) (cid lc : CID) (svc : Svc)
    (specs : List (ServiceID × DepSpec))
    (hprov : lookupA (getContainer w cid).providers (.ref svc)
        = some (.service svc (specs.map Prod.fst) (some lc)))
    (hcache : lookupA (getContainer w cid).cache (.ref svc) = none)
    (hpar : (getContainer w lc).parents = [] ∨ (getContainer w lc).parents = [cid])
    (hres : ∀ x ∈ specs, ResolvesTo w cid lc x) :
    ∃ w', containerGet (fuel + 1 + 1 + 1) w cid (.ref svc) = (w', .ok (.obj w.nextObj)) ∧
      w'.events = w.events ++ [(svc, specs.map fun x => x.2.value)] ∧
      w'.nextObj = w.nextObj + 1 ∧
      lookupA (getContainer w' cid).cache (.ref svc) = some (.obj w.nextObj) := by
  set w1 := Container.inherit w lc [cid] with hw1def
  have hresw1 : ∀ x ∈ specs, ResolvesTo w1 cid lc x := by
    intro x hx
    have h := hres x hx
    obtain ⟨d, spec⟩ := x
    cases spec with
    | fromLocal v =>
      exact ⟨by rw [inherit_providers]; exact h.1, by rw [inherit_cache]; exact h.2⟩
    | fromParent v =>
      obtain ⟨h1, h2, h3, h4, h5⟩ := h
      exact ⟨by rw [inherit_providers]; exact h1, by rw [inherit_cache]; exact h2,
        by rw [inherit_providers]; exact h3, by rw [inherit_cache]; exact h4, h5⟩
  have hparw1 : (getContainer w1 lc).parents = [cid] := by
    rw [hw1def, getContainer_inherit]
    simp only [if_pos rfl]
    rcases hpar with h | h <;> simp [h, addUnique]
  obtain ⟨w2, hw2, hext2⟩ := depScan_specs fuel w1 cid lc specs hresw1 hparw1
  rw [containerGet_succ]
  simp only [hcache, hprov]
  simp only [Option.getD_none, truthy]
  rw [show providerProduce (fun w' c' s' => containerGet (fuel + 1 + 1) w' c' s') w
        (.service svc (specs.map Prod.fst) (some lc)) cid
      = (match depScan (fun w' c' s' => containerGet (fuel + 1 + 1) w' c' s') w1 lc
            (specs.map Prod.fst) with
         | (w2, .ok services) =>
            let (w3, v) := construct w2 svc services
            (w3, .ok v)
         | (w2, .error e) => (w2, .error e)) from rfl]
  rw [hw2]
  have hnext : w2.nextObj = w.nextObj := by
    rw [hext2.2.1, (inherit_meta w lc [cid]).2.1]
  have hevents : w2.events = w.events := by
    rw [hext2.2.2.1, (inherit_meta w lc [cid]).2.2]
  refine ⟨setCache (construct w2 svc (specs.map fun x => x.2.value)).1 cid (.ref svc)
      (.obj w.nextObj), ?_, ?_, ?_, ?_⟩
  · simp [construct, hnext]
  · simp [construct, setCache, putContainer, hevents]
  · simp [construct, setCache, putContainer, hnext]
  · rw [getContainer_setCache]
    simp [lookupA_setA_self]

/-- The parent sets of all containers only ever grow: no operation of the
engine removes a parent link. -/
def ParentsMono (w w' : World) : Prop :=
  ∀ c p, p ∈ (getContainer w c).parents → p ∈ (getContainer w' c).parents

theorem ParentsMono.rfl (w : World) : ParentsMono w w := fun _ _ h => h

theorem ParentsMono.seq {w1 w2 w3 : World}
    (h12 : ParentsMono w1 w2) (h23 : ParentsMono w2 w3) : ParentsMono w1 w3 :=
  fun c p h => h23 c p (h12 c p h)

theorem mem_addUnique (l : List CID) (c : CID) {p : CID} (h : p ∈ l) : p ∈ addUnique l c := by
  unfold addUnique
  by_cases hc : c ∈ l <;> simp [hc, h]

theorem mem_foldl_addUnique (ps : List CID) (l : List CID) {p : CID} (h : p ∈ l) :
    p ∈ ps.foldl addUnique l := by
  induction ps generalizing l with
  | nil => exact h
  | cons q qs ih => exact ih (addUnique l q) (mem_addUnique l q h)

theorem ParentsMono.setCache (w : World) (cid : CID) (sid : ServiceID) (v : Value) :
    ParentsMono w (setCache w cid sid v) := by
  intro c p h
  rw [setCache_parents]; exact h

theorem ParentsMono.inherit (w : World) (lc : CID) (ps : List CID) :
    ParentsMono w (Container.inherit w lc ps) := by
  intro c p h
  rw [getContainer_inherit]
  by_cases hc : lc = c
  · subst hc; simp only [if_pos (Eq.refl lc)]
    exact mem_foldl_addUnique ps _ h
  · simp only [if_neg hc]; exact h

theorem parentScan_mono (get : GetFn) (hget : ∀ w c s, ParentsMono w (get w c s).1) :
    ∀ ps (w : World) (sid : ServiceID), ParentsMono w (parentScan get w ps sid).1 := by
  intro ps
  induction ps with
  | nil => intro w sid; exact ParentsMono.rfl w
  | cons q qs ih =>
    intro w sid
    rw [parentScan_cons]
    rcases hg : get w q sid with ⟨w', r⟩
    have h1 : ParentsMono w w' := by have := hget w q sid; rw [hg] at this; exact this
    cases r with
    | ok service =>
      by_cases hu : service = .undef
      · simp [hu]
        exact h1.seq (ih w' sid)
      · simp [hu]
        exact h1
    | error e => simpa using h1

theorem depScan_mono (get : GetFn) (hget : ∀ w c s, ParentsMono w (get w c s).1) :
    ∀ ds (w : World) (rcid : CID), ParentsMono w (depScan get w rcid ds).1 := by
  intro ds
  induction ds with
  | nil => intro w rcid; exact ParentsMono.rfl w
  | cons d rest ih =>
    intro w rcid
    rw [depScan_cons]
    rcases hg : get w rcid d with ⟨w', r⟩
    have h1 : ParentsMono w w' := by have := hget w rcid d; rw [hg] at this; exact this
    cases r with
    | ok v =>
      rcases hs : depScan get w' rcid rest with ⟨w2, r2⟩
      have h2 : ParentsMono w' w2 := by have := ih w' rcid; rw [hs] at this; exact this
      cases r2 <;> simpa [hg, hs] using h1.seq h2
    | error e => simpa [hg] using h1

theorem providerProduce_mono (get : GetFn) (hget : ∀ w c s, ParentsMono w (get w c s).1)
    (w : World) (p : Provider) (invoking : CID) :
    ParentsMono w (providerProduce get w p invoking).1 := by
  cases p with
  | constant sid v => exact ParentsMono.rfl w
  | service svc deps locals =>
    cases locals with
    | none =>
      simp only [providerProduce]
      rcases hs : depScan get w invoking deps with ⟨w2, r2⟩
      have h2 : ParentsMono w w2 := by
        have := depScan_mono get hget deps w invoking; rw [hs] at this; exact this
      cases r2 <;> simpa [construct] using h2
    | some lc =>
      simp only [providerProduce]
      rcases hs : depScan get (Container.inherit w lc [invoking]) lc deps with ⟨w2, r2⟩
      have h1 : ParentsMono w (Container.inherit w lc [invoking]) :=
        ParentsMono.inherit w lc [invoking]
      have h2 : ParentsMono (Container.inherit w lc [invoking]) w2 := by
        have := depScan_mono get hget deps (Container.inherit w lc [invoking]) lc
        rw [hs] at this; exact this
      cases r2 <;> simpa [construct] using h1.seq h2
  | interface tok svc deps locals =>
    cases locals with
    | none =>
      simp only [providerProduce]
      rcases hs : depScan get w invoking deps with ⟨w2, r2⟩
      have h2 : ParentsMono w w2 := by
        have := depScan_mono get hget deps w invoking; rw [hs] at this; exact this
      cases r2 <;> simpa [construct] using h2
    | some lc =>
      simp only [providerProduce]
      rcases hs : depScan get (Container.inherit w lc [invoking]) lc deps with ⟨w2, r2⟩
      have h1 : ParentsMono w (Container.inherit w lc [invoking]) :=
        ParentsMono.inherit w lc [invoking]
      have h2 : ParentsMono (Container.inherit w lc [invoking]) w2 := by
        have := depScan_mono get hget deps (Container.inherit w lc [invoking]) lc
        rw [hs] at this; exact this
      cases r2 <;> simpa [construct] using h1.seq h2
  | custom sid fn =>
    cases fn with
    | constFn v => exact ParentsMono.rfl w
    | getFn s => exact hget w invoking s

theorem containerGet_mono : ∀ (fuel : Nat) (w : World) (cid : CID) (sid : ServiceID),
    ParentsMono w (containerGet fuel w cid sid).1 := by
  intro fuel
  induction fuel with
  | zero => intro w cid sid; exact ParentsMono.rfl w
  | succ fuel ih =>
    intro w cid sid
    rw [containerGet_succ]
    simp only
    by_cases ht : truthy ((lookupA (getContainer w cid).cache sid).getD .undef)
    · simp [ht]; exact ParentsMono.rfl w
    · simp only [ht, if_false, Bool.false_eq_true]
      rcases hp : lookupA (getContainer w cid).providers sid with _ | p
      · simp only
        exact parentScan_mono _ (fun a b c => ih a b c) _ w sid
      · simp only
        rcases hg : providerProduce (fun w' c' s' => containerGet fuel w' c' s') w p cid
          with ⟨w', r⟩
        have h1 : ParentsMono w w' := by
          have := providerProduce_mono _ (fun a b c => ih a b c) w p cid
          rw [hg] at this; exact this
        cases r with
        | ok service => exact h1.seq (ParentsMono.setCache w' cid sid service)
        | error e => simpa using h1

/-! ### Support lemmas for the registration operations -/

theorem setA_self {α β : Type} [DecidableEq α] (l : List (α × β)) (k : α) (v : β)
    (h : lookupA l k = some v) : setA l k v = l := by
  induction l with
  | nil => simp [lookupA] at h
  | cons hd tl ih =>
    cases hd with
    | mk k0 v0 =>
      by_cases h0 : k0 = k
      · subst h0
        simp [lookupA] at h
        simp [setA, h]
      · simp [lookupA, h0] at h
        simp [setA, h0, ih h]

theorem getContainer_setProvider (w : World) (cid : CID) (sid : ServiceID) (p : Provider)
    (c : CID) :
    getContainer (setProvider w cid sid p) c =
      if cid = c then
        { getContainer w cid with providers := setA (getContainer w cid).providers sid p }
      else getContainer w c := by
  by_cases h : cid = c
  · subst h; simp [setProvider, getContainer_putContainer_self]
  · simp [setProvider, h, getContainer_putContainer_ne _ _ h]

theorem getContainer_newContainer (w : World) (n : String) (c : CID) :
    getContainer (newContainer w n).1 c =
      if w.nextCID = c then { name := n } else getContainer w c := by
  by_cases h : w.nextCID = c
  · subst h; simp [newContainer, getContainer, lookupA_setA_self]
  · simp [newContainer, getContainer, lookupA_setA_ne _ _ h, h]

theorem Container.constant_getContainer_ne (w : World) (lc : CID) (uid : Nat) (name : String)
    (v : Value) (c : CID) (h : lc ≠ c) :
    getContainer (Container.constant w lc uid name v).1 c = getContainer w c := by
  unfold Container.constant
  by_cases hp : (lookupA (getContainer w lc).providers (.token uid name)).isSome
  · simp [hp]
  · simp [hp, getContainer_setProvider, h]

theorem runBuilder_getContainer (cmds : List RegCmd) (w : World) (lc : CID) (c : CID)
    (h : lc ≠ c) : getContainer (runBuilder w lc cmds).1 c = getContainer w c := by
  induction cmds generalizing w with
  | nil => rfl
  | cons cmd rest ih =>
    cases cmd with
    | constant uid name v =>
      simp only [runBuilder]
      rcases hc : Container.constant w lc uid name v with ⟨w', r⟩
      have hw' : getContainer w' c = getContainer w c := by
        have := Container.constant_getContainer_ne w lc uid name v c h
        rw [hc] at this; exact this
      cases r with
      | ok u => simpa [ih] using hw'
      | error e => simpa using hw'

theorem mem_addUnique_self (l : List CID) (c : CID) : c ∈ addUnique l c := by
  unfold addUnique
  by_cases h : c ∈ l <;> simp [h]

theorem inherit_mem_self (w : World) (lc : CID) (c : CID) :
    c ∈ (getContainer (Container.inherit w lc [c]) lc).parents := by
  rw [getContainer_inherit]
  simp only [if_pos rfl, List.foldl]
  exact mem_addUnique_self _ c

/-! ### Concrete scenario worlds (used by witnesses and counterexamples) -/

/-- The spec's running example: registry `R` binds Token `URL` to
"http://a/"; child `C` (container id 1) adds `R` as parent and binds `URL`
to "http://b/". -/
def exampleWorld : World :=
  let (w, r) := newContainer ({} : World) "R"
  let (w, _) := Container.constant w r 0 "URL" (.str "http://a/")
  let (w, c) := newContainer w "C"
  let w := Container.inherit w c [r]
  (Container.constant w c 0 "URL" (.str "http://b/")).1

/-- A registry named "main" (container id 0) with Token `Z` bound to the
falsy constant `0`. -/
def zWorld : World :=
  let (w, c) := newContainer ({} : World) "main"
  (Container.constant w c 0 "Z" (.num 0)).1

/-- `zWorld` after one resolution of `Z`: the cache now holds the falsy
value `0` under `Z`. -/
def zWorldCached : World := (containerGet 2 zWorld 0 (.token 0 "Z")).1

/-! ### The claims -/

/-- C2: local bindings shadow parent bindings.  With `id` bound to constant
A on `child` (and not yet cached there) and bound to B on a member of
`child`'s parent set, `child.get(id)` yields A: `Container.get` consults
the local provider table (step 2) before the parent loop (step 3), so the
parent's binding B is never read. -/
theorem C2_local_shadows_parent (fuel : Nat) (w : World) (child parent : CID)
    (uid : Nat) (name : String) (A B : Value)
    (hlocal : lookupA (getContainer w child).providers (.token uid name)
        = some (.constant (.token uid name) A))
    (hcache : lookupA (getContainer w child).cache (.token uid name) = none)
    (hparent : parent ∈ (getContainer w child).parents)
    (hpbind : lookupA (getContainer w parent).providers (.token uid name)
        = some (.constant (.token uid name) B)) :
    containerGet (fuel + 1) w child (.token uid name)
      = (setCache w child (.token uid name) A, .ok A) :=
  containerGet_constant_eq fuel w child _ A (by simp [hcache, truthy]) hlocal

/-- Witness for C2, on the spec's URL example: `C.resolve(URL)` yields
"http://b/", the local binding, not the parent's "http://a/". -/
theorem C2_witness :
    containerGet 5 exampleWorld 1 (.token 0 "URL")
      = (setCache exampleWorld 1 (.token 0 "URL") (.str "http://b/"),
         .ok (.str "http://b/")) :=
  C2_local_shadows_parent 4 exampleWorld 1 0 0 "URL" (.str "http://b/") (.str "http://a/")
    (by decide) (by decide) (by decide) (by decide)

/-- C4 (Container.has modelled from the spec, see `hasFuel`): `has(id)` is
true iff the id is cached, or locally provided, or some parent's `has` is
true.  `hasFuel` is a total `Bool`-valued pure function of the world, so it
never raises and can have no side effects (in particular it instantiates
nothing: it does not touch the world). -/
theorem C4_has_characterization (fuel : Nat) (w : World) (cid : CID) (sid : ServiceID) :
    hasFuel (fuel + 1) w cid sid = true ↔
      ((lookupA (getContainer w cid).cache sid).isSome = true ∨
       (lookupA (getContainer w cid).providers sid).isSome = true ∨
       ∃ p ∈ (getContainer w cid).parents, hasFuel fuel w p sid = true) := by
  simp [hasFuel, List.any_eq_true, Bool.or_eq_true, or_assoc]

/-- C9 counterexample: `registerProvider` does *not* bypass all validation:
on an identifier that already has a provider bound it raises the
duplicate-registration error (`Container.provider` calls `this.exists`)
instead of succeeding. -/
theorem C9_counterexample :
    (Container.provider zWorld 0 (.token 0 "Z") (.constFn (.num 5))).2
        = .error (.alreadyRegistered "Z" "main") ∧
    (Container.provider zWorld 0 (.token 0 "Z") (.constFn (.num 5))).2 ≠ .ok () := by
  decide

/-- C9 (amended): `Container.provider` stores the custom provider directly,
with no validation of the producer function; but it does run the
duplicate-registration check: for an id with no local provider it succeeds
and stores the provider, while for an id already bound it raises
"already registered" and stores nothing. -/
theorem C9_provider_registration (w : World) (cid : CID) (sid : ServiceID) (fn : ProducerFn) :
    (lookupA (getContainer w cid).providers sid = none →
      Container.provider w cid sid fn = (setProvider w cid sid (.custom sid fn), .ok ())) ∧
    ((lookupA (getContainer w cid).providers sid).isSome = true →
      Container.provider w cid sid fn
        = (w, .error (.alreadyRegistered sid.sname (getContainer w cid).name))) := by
  constructor
  · intro h; simp [Container.provider, existsCheck, h]
  · intro h; simp [Container.provider, existsCheck, h]

/-- Witness for C9 (amended): registering a custom provider under a fresh
token succeeds and stores it. -/
theorem C9_witness :
    Container.provider zWorld 0 (.token 1 "Y") (.constFn .null)
      = (setProvider zWorld 0 (.token 1 "Y") (.custom (.token 1 "Y") (.constFn .null)),
         .ok ()) :=
  (C9_provider_registration zWorld 0 (.token 1 "Y") (.constFn .null)).1 (by decide)

/-- C10: the instance-cache lookup uses JS truthiness (`if (cached)`), so a
falsy cached value (`undefined`, `null`, `false`, `0`, `NaN`, `""`) is
treated as a cache miss: the provider is invoked again and the cache entry
is rewritten; the cache-hit return happens only for a truthy cached value.
For a constant provider the same bound value is returned on every call. -/
theorem C10_falsy_cache_refetch (fuel : Nat) (w : World) (cid : CID) (sid : ServiceID)
    (v : Value) (hcache : lookupA (getContainer w cid).cache sid = some v) :
    (truthy v = false →
      ∀ vc, lookupA (getContainer w cid).providers sid = some (.constant sid vc) →
        containerGet (fuel + 1) w cid sid = (setCache w cid sid vc, .ok vc)) ∧
    (truthy v = true → containerGet (fuel + 1) w cid sid = (w, .ok v)) := by
  constructor
  · intro hf vc hp
    exact containerGet_constant_eq fuel w cid sid vc (by simp [hcache, hf]) hp
  · intro ht; exact containerGet_cached fuel w cid sid v hcache ht

/-- Witness for C10: with `0` cached under `Z`, resolving `Z` again takes
the provider path and rewrites the cache entry, returning `0` once more. -/
theorem C10_witness :
    containerGet 3 zWorldCached 0 (.token 0 "Z")
      = (setCache zWorldCached 0 (.token 0 "Z") (.num 0), .ok (.num 0)) :=
  (C10_falsy_cache_refetch 2 zWorldCached 0 (.token 0 "Z") (.num 0) (by decide)).1
    (by decide) (.num 0) (by decide)

/-- Two parents: `p1` (container 0, empty) and `p2` (container 1, which
binds `URL` to "x"); the child (container 2) has parents `[p1, p2]` and no
binding of its own. -/
def twoParentWorld : World :=
  let (w, _) := newContainer ({} : World) "p1"
  let (w, p2) := newContainer w "p2"
  let (w, _) := Container.constant w p2 0 "URL" (.str "x")
  let (w, c) := newContainer w "child"
  Container.inherit w c [0, 1]

/-- C3 counterexample: with the first parent unable to resolve `URL` and the
second parent able to, `child.get(URL)` does **not** succeed with the later
parent's value: the first parent's `get` throws "Service ... cannot be
resolved", `Container.get` has no try/catch around `parent.get`, and the
error propagates before the second parent is consulted. -/
theorem C3_counterexample :
    (containerGet 5 twoParentWorld 2 (.token 0 "URL")).2
        = .error (.serviceNotFound (.token 0 "URL")) ∧
    (containerGet 5 twoParentWorld 2 (.token 0 "URL")).2 ≠ .ok (.str "x") ∧
    (containerGet 5 twoParentWorld 1 (.token 0 "URL")).2 = .ok (.str "x") := by
  decide

/-- C3 (amended): with no cache entry and no local provider, `Container.get`
scans the parents in order; the first parent's *successful, defined* result
is returned (remaining parents unread), but if a consulted parent cannot
resolve the id, the error it throws propagates immediately and later
parents are never consulted — even when one of them could resolve the id. -/
theorem C3_parent_scan (fuel : Nat) (w : World) (cid p : CID) (ps : List CID)
    (sid : ServiceID)
    (hcache : lookupA (getContainer w cid).cache sid = none)
    (hprov : lookupA (getContainer w cid).providers sid = none)
    (hpar : (getContainer w cid).parents = p :: ps) :
    (∀ w' v, containerGet fuel w p sid = (w', .ok v) → v ≠ .undef →
      containerGet (fuel + 1) w cid sid = (w', .ok v)) ∧
    (∀ w' e, containerGet fuel w p sid = (w', .error e) →
      containerGet (fuel + 1) w cid sid = (w', .error e)) := by
  constructor
  · intro w' v hp hv
    rw [containerGet_succ]
    simp only [hcache, hprov, hpar, Option.getD_none, truthy]
    rw [parentScan_cons]
    simp [hp, hv]
  · intro w' e hp
    rw [containerGet_succ]
    simp only [hcache, hprov, hpar, Option.getD_none, truthy]
    rw [parentScan_cons]
    simp [hp]

/-- Witness for C3 (amended), error half, on the two-parent world: the first
parent cannot resolve `URL`, so the child's resolve propagates that error
even though the second parent binds `URL`. -/
theorem C3_witness :
    containerGet 5 twoParentWorld 2 (.token 0 "URL")
      = (twoParentWorld, .error (.serviceNotFound (.token 0 "URL"))) :=
  (C3_parent_scan 4 twoParentWorld 2 0 [1] (.token 0 "URL")
      (by decide) (by decide) (by decide)).2
    twoParentWorld (.serviceNotFound (.token 0 "URL")) (by decide)


/-- The service used by the C7 witness: a constructor declaring 2 parameters. -/
def c7Svc : Svc := { uid := 7, name := "T", arity := 2 }

/-- C7: a declared dependency list whose length differs from the target
constructor's declared parameter count makes construction of the provider
itself fail with the arity error, at registration time; on the container
registration path (`Container.service` / `Container.interface`) the
registration call consequently fails and no provider is stored under the
identifier. -/
theorem C7_arity_mismatch (svc : Svc) (deps : List ServiceID)
    (hmis : svc.arity ≠ deps.length) :
    (∀ locals, mkServiceProvider svc deps locals
        = .error (.arityMismatch svc.name svc.arity deps.length)) ∧
    (∀ tok locals, mkInterfaceProvider tok svc deps locals
        = .error (.arityMismatch svc.name svc.arity deps.length)) ∧
    (∀ w cid builder, lookupA (getContainer w cid).providers (.ref svc) = none →
      cid ≠ w.nextCID →
        (Container.service w cid svc deps builder).2 ≠ .ok () ∧
        lookupA (getContainer (Container.service w cid svc deps builder).1 cid).providers
            (.ref svc) = none) ∧
    (∀ w cid uid name builder,
      lookupA (getContainer w cid).providers (.token uid name) = none →
      cid ≠ w.nextCID →
        (Container.interface w cid uid name svc deps builder).2 ≠ .ok () ∧
        lookupA (getContainer (Container.interface w cid uid name svc deps builder).1
            cid).providers (.token uid name) = none) := by
  refine ⟨fun locals => by simp [mkServiceProvider, hmis],
    fun tok locals => by simp [mkInterfaceProvider, hmis], ?_, ?_⟩
  · intro w cid builder hfresh hcid
    have hex : existsCheck w cid (.ref svc) = .ok () := by simp [existsCheck, hfresh]
    have hkeep : ∀ w2 : World, (runBuilder (newContainer w).1 (newContainer w).2 builder)
        = (w2, (runBuilder (newContainer w).1 (newContainer w).2 builder).2) →
        getContainer w2 cid = getContainer w cid := by
      intro w2 h2
      have hne : w.nextCID ≠ cid := fun he => hcid he.symm
      have ha : getContainer (newContainer w).1 cid = getContainer w cid := by
        rw [getContainer_newContainer]
        simp [hne]
      have hb := runBuilder_getContainer builder (newContainer w).1 (newContainer w).2 cid
        (fun he => hcid he.symm)
      rw [h2] at hb
      simpa [ha] using hb
    simp only [Container.service, hex]
    rcases hrb : runBuilder (newContainer w).1 (newContainer w).2 builder with ⟨w2, rb⟩
    have hw2 : getContainer w2 cid = getContainer w cid := hkeep w2 (by rw [hrb])
    cases rb with
    | error e => simp [hrb, hw2, hfresh]
    | ok u => simp [hrb, mkServiceProvider, hmis, hw2, hfresh]
  · intro w cid uid name builder hfresh hcid
    have hex : existsCheck w cid (.token uid name) = .ok () := by simp [existsCheck, hfresh]
    have hkeep : ∀ w2 : World, (runBuilder (newContainer w).1 (newContainer w).2 builder)
        = (w2, (runBuilder (newContainer w).1 (newContainer w).2 builder).2) →
        getContainer w2 cid = getContainer w cid := by
      intro w2 h2
      have hne : w.nextCID ≠ cid := fun he => hcid he.symm
      have ha : getContainer (newContainer w).1 cid = getContainer w cid := by
        rw [getContainer_newContainer]
        simp [hne]
      have hb := runBuilder_getContainer builder (newContainer w).1 (newContainer w).2 cid
        (fun he => hcid he.symm)
      rw [h2] at hb
      simpa [ha] using hb
    simp only [Container.interface, hex]
    rcases hrb : runBuilder (newContainer w).1 (newContainer w).2 builder with ⟨w2, rb⟩
    have hw2 : getContainer w2 cid = getContainer w cid := hkeep w2 (by rw [hrb])
    cases rb with
    | error e => simp [hrb, hw2, hfresh]
    | ok u => simp [hrb, mkInterfaceProvider, hmis, hw2, hfresh]

/-- Witness for C7: registering a 2-parameter constructor with a 1-element
dependency list on a fresh container fails and stores nothing. -/
theorem C7_witness :
    (Container.service zWorld 0 c7Svc [.token 0 "Z"] []).2 ≠ .ok () ∧
    lookupA (getContainer (Container.service zWorld 0 c7Svc [.token 0 "Z"] []).1 0).providers
        (.ref c7Svc) = none :=
  (C7_arity_mismatch c7Svc [.token 0 "Z"] (by decide)).2.2.1 zWorld 0 []
    (by decide) (by decide)


/-- The service used by the C8 scenario: one declared parameter, with its
dependency identifier unresolvable anywhere. -/
def c8Svc : Svc := { uid := 103, name := "W", arity := 1 }

/-- A container "main" (id 0) with service `W` registered against the
unresolvable dependency token `bad`; the service-level container has id 1. -/
def c8World : World :=
  let (w, c) := newContainer ({} : World) "main"
  (Container.service w c c8Svc [.token 9 "bad"] []).1

/-- C8: a throwing production propagates synchronously out of
`Container.get` — the `cache.set` line after `provider.get(this)` is never
reached, so the instance cache gains no entry for the identifier (the
result world is exactly the one the producer threw in).  On the concrete
scenario, the first resolve fails, the cache still has no entry for the
service, and a second resolve fails identically. -/
theorem C8_failure_leaves_no_cache_entry :
    (∀ (fuel : Nat) (w w' : World) (cid : CID) (sid : ServiceID) (p : Provider) (e : Err),
      lookupA (getContainer w cid).cache sid = none →
      lookupA (getContainer w cid).providers sid = some p →
      providerProduce (fun a b c => containerGet fuel a b c) w p cid = (w', .error e) →
      containerGet (fuel + 1) w cid sid = (w', .error e)) ∧
    ((containerGet 4 c8World 0 (.ref c8Svc)).2
        = .error (.serviceNotFound (.token 9 "bad")) ∧
     lookupA (getContainer (containerGet 4 c8World 0 (.ref c8Svc)).1 0).cache (.ref c8Svc)
        = none ∧
     (containerGet 4 (containerGet 4 c8World 0 (.ref c8Svc)).1 0 (.ref c8Svc)).2
        = .error (.serviceNotFound (.token 9 "bad"))) := by
  constructor
  · intro fuel w w' cid sid p e hcache hprov hrun
    rw [containerGet_succ]
    simp [hcache, truthy, hprov, hrun]
  · decide

/-- Witness for C8: the general propagation half applied to the concrete
failing production of `W`. -/
theorem C8_witness :
    containerGet 4 c8World 0 (.ref c8Svc)
      = (Container.inherit c8World 1 [0], .error (.serviceNotFound (.token 9 "bad"))) :=
  C8_failure_leaves_no_cache_entry.1 3 c8World (Container.inherit c8World 1 [0]) 0
    (.ref c8Svc) (.service c8Svc [.token 9 "bad"] (some 1)) (.serviceNotFound (.token 9 "bad"))
    (by decide) (by decide) (by decide)

/-- The dependency-free service used by the C6 scenario. -/
def c6Svc : Svc := { uid := 100, name := "S", arity := 0 }

/-- A container "main" (id 0) with the dependency-free service `S`
registered; its service-level (override) container has id 1 and, at
registration time, an empty parent set. -/
def c6World : World :=
  let (w, c) := newContainer ({} : World) "main"
  (Container.service w c c6Svc [] []).1

/-- C6 counterexample: the override scope's parent link to the invoking
registry is *not* transient.  Before the first resolve the service-level
container (id 1) has no parents; after `produce` returns, the invoking
container remains in its parent set — `ServiceProvider.get` calls
`this.container.inherit(container)` and nothing ever removes the link. -/
theorem C6_counterexample :
    (getContainer c6World 1).parents = [] ∧
    (getContainer (containerGet 3 c6World 0 (.ref c6Svc)).1 1).parents = [0] := by
  decide

/-- C6 (amended): the parent link from the override scope to the invoking
registry is established immediately before each `produce` call (first
statement: after any `produce` of a service or interface provider with a
service-level container `lc`, the invoking container is in `lc`'s parent
set — and it stays there, since parent sets only grow), and re-establishing
it is idempotent: when the link is already present, `inherit` leaves the
world unchanged. -/
theorem C6_persistent_parent_link :
    (∀ (fuel : Nat) (w w' : World) (svc : Svc) (deps : List ServiceID) (lc invoking : CID)
        (r : Except Err Value),
      providerProduce (fun a b c => containerGet fuel a b c) w
          (.service svc deps (some lc)) invoking = (w', r) →
      invoking ∈ (getContainer w' lc).parents) ∧
    (∀ (fuel : Nat) (w w' : World) (tok : ServiceID) (svc : Svc) (deps : List ServiceID)
        (lc invoking : CID) (r : Except Err Value),
      providerProduce (fun a b c => containerGet fuel a b c) w
          (.interface tok svc deps (some lc)) invoking = (w', r) →
      invoking ∈ (getContainer w' lc).parents) ∧
    (∀ (w : World) (lc c : CID) (cd : ContainerData),
      lookupA w.containers lc = some cd → c ∈ cd.parents →
      Container.inherit w lc [c] = w) := by
  refine ⟨?_, ?_, ?_⟩
  · intro fuel w w' svc deps lc invoking r hrun
    simp only [providerProduce] at hrun
    set w1 := Container.inherit w lc [invoking] with hw1
    have hmem : invoking ∈ (getContainer w1 lc).parents := inherit_mem_self w lc invoking
    rcases hs : depScan (fun a b c => containerGet fuel a b c) w1 lc deps with ⟨w2, r2⟩
    have hmono : ParentsMono w1 w2 := by
      have := depScan_mono (fun a b c => containerGet fuel a b c)
        (fun a b c => containerGet_mono fuel a b c) deps w1 lc
      rw [hs] at this; exact this
    have hmem2 : invoking ∈ (getContainer w2 lc).parents := hmono lc invoking hmem
    rw [hs] at hrun
    cases r2 with
    | ok services =>
      cases hrun
      simpa [construct, getContainer] using hmem2
    | error e =>
      cases hrun
      exact hmem2
  · intro fuel w w' tok svc deps lc invoking r hrun
    simp only [providerProduce] at hrun
    set w1 := Container.inherit w lc [invoking] with hw1
    have hmem : invoking ∈ (getContainer w1 lc).parents := inherit_mem_self w lc invoking
    rcases hs : depScan (fun a b c => containerGet fuel a b c) w1 lc deps with ⟨w2, r2⟩
    have hmono : ParentsMono w1 w2 := by
      have := depScan_mono (fun a b c => containerGet fuel a b c)
        (fun a b c => containerGet_mono fuel a b c) deps w1 lc
      rw [hs] at this; exact this
    have hmem2 : invoking ∈ (getContainer w2 lc).parents := hmono lc invoking hmem
    rw [hs] at hrun
    cases r2 with
    | ok services =>
      cases hrun
      simpa [construct, getContainer] using hmem2
    | error e =>
      cases hrun
      exact hmem2
  · intro w lc c cd hlook hmem
    unfold Container.inherit
    have hget : getContainer w lc = cd := by simp [getContainer, hlook]
    rw [hget]
    simp only [List.foldl]
    rw [show addUnique cd.parents c = cd.parents by unfold addUnique; simp [hmem]]
    show putContainer w lc cd = w
    unfold putContainer
    rw [setA_self w.containers lc cd hlook]

/-- Witness for C6 (amended): the link persists in the produce result on
the concrete scenario, and re-inheriting the already-present parent is a
no-op on the post-resolve world. -/
theorem C6_witness :
    0 ∈ (getContainer (providerProduce (fun a b c => containerGet 2 a b c) c6World
        (.service c6Svc [] (some 1)) 0).1 1).parents ∧
    Container.inherit (containerGet 3 c6World 0 (.ref c6Svc)).1 1 [0]
      = (containerGet 3 c6World 0 (.ref c6Svc)).1 := by
  constructor
  · exact C6_persistent_parent_link.1 2 c6World _ c6Svc [] 1 0 _ rfl
  · exact C6_persistent_parent_link.2.2 _ 1 0
      (getContainer (containerGet 3 c6World 0 (.ref c6Svc)).1 1) (by decide) (by decide)

/-- The two-parameter service used by the C5 scenario. -/
def c5Svc : Svc := { uid := 102, name := "V", arity := 2 }

/-- A container "main" (id 0) binding `X` to "B" and `Y` to "C", with
service `V` (deps `[X, Y]`) registered under an override builder that binds
`X` to "A" on the service-level container (id 1). -/
def c5World : World :=
  let (w, c) := newContainer ({} : World) "main"
  let (w, _) := Container.constant w c 0 "X" (.str "B")
  let (w, _) := Container.constant w c 1 "Y" (.str "C")
  (Container.service w c c5Svc [.token 0 "X", .token 1 "Y"]
    [.constant 0 "X" (.str "A")]).1

/-- C5: producing a service whose override scope binds dependency `x`
resolves `x` from the override scope's own binding (value A), taking
precedence over the invoking registry's binding (value B), while the
dependency `y` not bound in the override scope falls through the transient
parent link and resolves from the invoking registry (value C): the
constructor receives `[A, C]`. -/
theorem C5_override_precedence (fuel : Nat) (w : World) (cid lc : CID) (svc : Svc)
    (x y : ServiceID) (A B C : Value)
    (hprov : lookupA (getContainer w cid).providers (.ref svc)
        = some (.service svc [x, y] (some lc)))
    (hcache : lookupA (getContainer w cid).cache (.ref svc) = none)
    (hlx : lookupA (getContainer w lc).providers x = some (.constant x A))
    (hlxc : lookupA (getContainer w lc).cache x = none)
    (hly : lookupA (getContainer w lc).providers y = none)
    (hlyc : lookupA (getContainer w lc).cache y = none)
    (hpar : (getContainer w lc).parents = [])
    (hcx : lookupA (getContainer w cid).providers x = some (.constant x B))
    (hcy : lookupA (getContainer w cid).providers y = some (.constant y C))
    (hcyc : lookupA (getContainer w cid).cache y = none)
    (hC : C ≠ .undef) :
    ∃ w', containerGet (fuel + 1 + 1 + 1) w cid (.ref svc) = (w', .ok (.obj w.nextObj)) ∧
      w'.events = w.events ++ [(svc, [A, C])] := by
  have hres : ∀ z ∈ [(x, DepSpec.fromLocal A), (y, DepSpec.fromParent C)],
      ResolvesTo w cid lc z := by
    intro z hz
    simp only [List.mem_cons, List.not_mem_nil, or_false] at hz
    rcases hz with rfl | rfl
    · exact ⟨hlx, Or.inl hlxc⟩
    · exact ⟨hly, hlyc, hcy, Or.inl hcyc, hC⟩
  obtain ⟨w', h1, h2, _, _⟩ := containerGet_service fuel w cid lc svc
    [(x, .fromLocal A), (y, .fromParent C)] (by simpa using hprov) hcache
    (Or.inl hpar) hres
  exact ⟨w', by simpa using h1, by simpa [DepSpec.value] using h2⟩

/-- Witness for C5: on the concrete override scenario, resolving `V`
constructs it with `["A", "C"]` — the override's value for `X`, the
invoking container's value for `Y`. -/
theorem C5_witness :
    ∃ w', containerGet 5 c5World 0 (.ref c5Svc) = (w', .ok (.obj 0)) ∧
      w'.events = [] ++ [(c5Svc, [.str "A", .str "C"])] :=
  C5_override_precedence 2 c5World 0 1 c5Svc (.token 0 "X") (.token 1 "Y")
    (.str "A") (.str "B") (.str "C") (by decide) (by decide) (by decide) (by decide)
    (by decide) (by decide) (by decide) (by decide) (by decide) (by decide) (by decide)


/-- The one-parameter service used by the C1 counterexample. -/
def c1Svc : Svc := { uid := 101, name := "U", arity := 1 }

/-- A container "main" (id 0) binding token `A` to the constant `undefined`
and registering service `U` with declared dependency list `[A]`; the
service-level container has id 1. -/
def c1World : World :=
  let (w, c) := newContainer ({} : World) "main"
  let (w, _) := Container.constant w c 0 "A" .undef
  (Container.service w c c1Svc [.token 0 "A"] []).1

/-- C1 counterexample: a dependency can be resolvable in the registry
(resolving the token `A` itself succeeds, yielding `undefined`) while the
first resolve of the service that declares it never invokes the
constructor: the parent loop in `Container.get` skips `undefined` results
(`if (service !== undefined)`), so the service-level container's lookup of
`A` ends in "Service ... cannot be resolved" and the produce call throws —
the constructor is invoked zero times, not exactly once. -/
theorem C1_counterexample :
    (containerGet 2 c1World 0 (.token 0 "A")).2 = .ok .undef ∧
    (containerGet 5 c1World 0 (.ref c1Svc)).2
        = .error (.serviceNotFound (.token 0 "A")) ∧
    (containerGet 5 c1World 0 (.ref c1Svc)).1.events = [] := by
  decide

/-- C1 (amended): for a service registered with N declared dependency
identifiers, each bound in the invoking registry to a constant that is not
`undefined` (hence resolvable there), the first resolve invokes the
constructor exactly once — one construction event is appended, carrying the
N resolved values in declared order — and caches the instance; every
subsequent resolve (any fuel) returns the identical cached instance with
the world untouched: the cache hit returns before the provider lookup and
before the parent loop, so the provider is not invoked again and no parent
registry is consulted. -/
theorem C1_resolve_constructs_once (fuel : Nat) (w : World) (cid lc : CID) (svc : Svc)
    (bs : List (ServiceID × Value))
    (hprov : lookupA (getContainer w cid).providers (.ref svc)
        = some (.service svc (bs.map Prod.fst) (some lc)))
    (hcache : lookupA (getContainer w cid).cache (.ref svc) = none)
    (hpar : (getContainer w lc).parents = [])
    (hres : ∀ b ∈ bs, ResolvesTo w cid lc (b.1, .fromParent b.2)) :
    ∃ w', containerGet (fuel + 1 + 1 + 1) w cid (.ref svc) = (w', .ok (.obj w.nextObj)) ∧
      w'.events = w.events ++ [(svc, bs.map Prod.snd)] ∧
      lookupA (getContainer w' cid).cache (.ref svc) = some (.obj w.nextObj) ∧
      ∀ g, containerGet (g + 1) w' cid (.ref svc) = (w', .ok (.obj w.nextObj)) := by
  obtain ⟨w', h1, h2, h3, h4⟩ := containerGet_service fuel w cid lc svc
    (bs.map fun b => (b.1, DepSpec.fromParent b.2))
    (by simpa [List.map_map, Function.comp] using hprov) hcache (Or.inl hpar)
    (by intro z hz
        simp only [List.mem_map] at hz
        obtain ⟨b, hb, rfl⟩ := hz
        exact hres b hb)
  refine ⟨w', h1, ?_, h4, ?_⟩
  · simpa [List.map_map, Function.comp, DepSpec.value] using h2
  · intro g
    exact containerGet_cached g w' cid (.ref svc) (.obj w.nextObj) h4 (by simp [truthy])

/-- The two-parameter service used by the C1 witness. -/
def c1wSvc : Svc := { uid := 100, name := "S", arity := 2 }

/-- A container "main" (id 0) binding tokens `A` → 1 and `B` → 2 and
registering service `S` with declared dependencies `[A, B]`; the
service-level container has id 1. -/
def c1wWorld : World :=
  let (w, c) := newContainer ({} : World) "main"
  let (w, _) := Container.constant w c 0 "A" (.num 1)
  let (w, _) := Container.constant w c 1 "B" (.num 2)
  (Container.service w c c1wSvc [.token 0 "A", .token 1 "B"] []).1

/-- Witness for C1 (amended): resolving `S` constructs it once with
`[1, 2]`, caches the instance, and a second resolve returns it unchanged. -/
theorem C1_witness :
    ∃ w', containerGet 5 c1wWorld 0 (.ref c1wSvc) = (w', .ok (.obj 0)) ∧
      w'.events = [] ++ [(c1wSvc, [.num 1, .num 2])] ∧
      lookupA (getContainer w' 0).cache (.ref c1wSvc) = some (.obj 0) ∧
      ∀ g, containerGet (g + 1) w' 0 (.ref c1wSvc) = (w', .ok (.obj 0)) :=
  C1_resolve_constructs_once 2 c1wWorld 0 1 c1wSvc
    [(.token 0 "A", .num 1), (.token 1 "B", .num 2)]
    (by decide) (by decide) (by decide)
    (by intro b hb
        simp only [List.mem_cons, List.not_mem_nil, or_false] at hb
        rcases hb with rfl | rfl
        · exact ⟨by decide, by decide, by decide, Or.inl (by decide), by decide⟩
        · exact ⟨by decide, by decide, by decide, Or.inl (by decide), by decide⟩)

end DIFuse
